import Mathlib

/-!
Verification of the real-time location fan-out core of the GeoTrack backend
(`src/modules/tracking/realtime-tracking.service.ts` together with the
mongoose schemas of `tracking.model.ts`).

The service keeps three pieces of mutable state:
  * `activeConnections : Map<string, SocketRoom>` — socket id to the
    authenticated connection record (the registry);
  * `organizationRooms : Map<string, Set<string>>` — organization id to the
    set of socket ids it maintains by hand;
  * the socket.io room membership (`socket.join`, `io.to(room).emit`), which
    the code uses for every broadcast (`org_*`, `user_*`, `customer_*` rooms).

JavaScript `Map`/`Set` cannot hold a key twice, so they are embedded as
association lists whose update operations rewrite every entry of the key
(`setA`/`mapA`/`eraseA`); timestamps (`new Date()`) are Nat ticks supplied by
the environment; `number` fields compared against schema bounds are `Rat`.
The database (`LocationTracking` collection) is a list of documents, and a
mongoose `save()` either stores a document that passes the schema validators
or rejects; `await`ed store calls that can fail at the I/O level are governed
by the `dbOk` flag of the per-event environment.

Each socket.io handler of the service becomes a function
`ServerState → StepResult` returning the new state, the list of deliveries
(recipient socket id and event name, room emits expanded against the
membership at emission time) and the list of persistence functions invoked.
-/

namespace GeoTrack

/-- Decoded output of `AuthUtils.verifyAccessToken` as the `authenticate`
handler uses it (`decoded.userId`, `decoded.organizationId!`). -/
structure Identity where
  userId : String
  organizationId : String
deriving DecidableEq, Repr

/-- `deviceInfo` sub-object of `RealtimeLocationData`. -/
structure DeviceInfo where
  model : Option String
  os : Option String
  appVersion : Option String
deriving DecidableEq, Repr

/-- `RealtimeLocationData` — the inbound `location_update` payload. The
TypeScript type annotations promise the location fields, but a runtime
payload is unchecked (`any` over the wire), so every field the mongoose
schema validates is carried as an `Option`; `mongoose` then rejects a
missing required field at `save()` time. -/
structure RealtimeLocationData where
  userId : String
  organizationId : String
  latitude : Option Rat
  longitude : Option Rat
  accuracy : Option Rat
  altitude : Option Rat
  speed : Option Rat
  heading : Option Rat
  timestamp : Option Nat
  deviceInfo : Option DeviceInfo
  batteryLevel : Option Rat
  networkType : Option String
  isActive : Bool
deriving DecidableEq, Repr

/-- `SocketRoom` — the per-connection record stored in `activeConnections`. -/
structure SocketRoom where
  userId : String
  organizationId : String
  socketId : String
  isTracking : Bool
  lastUpdate : Nat
deriving DecidableEq, Repr

/-- One `LocationTracking` document (`tracking.model.ts`). -/
structure TrackingDoc where
  userId : String
  organizationId : String
  latitude : Option Rat
  longitude : Option Rat
  accuracy : Option Rat
  altitude : Option Rat
  speed : Option Rat
  heading : Option Rat
  timestamp : Option Nat
  deviceInfo : Option DeviceInfo
  batteryLevel : Option Rat
  networkType : Option String
  isActive : Bool
deriving DecidableEq, Repr

/-! ### Association-list embedding of JavaScript Map / Set -/

/-- `Map.get`: the value stored at `k`. -/
def lookupA {α : Type} : List (String × α) → String → Option α
  | [], _ => none
  | (k', v) :: rest, k => if k' == k then some v else lookupA rest k

/-- Rewrite the value stored at `k` with `f` (used for `Map.get(k)!.add(...)`
style updates); entries of other keys are untouched. -/
def mapA {α : Type} : List (String × α) → String → (α → α) → List (String × α)
  | [], _, _ => []
  | (k', v) :: rest, k, f =>
      (k', if k' == k then f v else v) :: mapA rest k f

/-- `Map.set`: overwrite the value at `k`, or append a new entry. -/
def setA {α : Type} (m : List (String × α)) (k : String) (v : α) :
    List (String × α) :=
  if (lookupA m k).isSome then mapA m k (fun _ => v) else m ++ [(k, v)]

/-- `Map.delete k`. -/
def eraseA {α : Type} : List (String × α) → String → List (String × α)
  | [], _ => []
  | (k', v) :: rest, k =>
      if k' == k then eraseA rest k else (k', v) :: eraseA rest k

/-- `Set.add`: JavaScript sets keep insertion order and ignore duplicates. -/
def addToSet (l : List String) (x : String) : List String :=
  if l.contains x then l else l ++ [x]

/-- `Set.delete`. -/
def removeFromSet (l : List String) (x : String) : List String :=
  l.filter (fun y => !(y == x))

/-! ### socket.io rooms -/

/-- Room name to member socket ids (the socket.io adapter's view). -/
abbrev RoomMap := List (String × List String)

/-- The members of a socket.io room; an unknown room is empty. -/
def roomMembers (m : RoomMap) (room : String) : List String :=
  (lookupA m room).getD []

/-- `socket.join(room)`. -/
def joinRoom (m : RoomMap) (room sid : String) : RoomMap :=
  if (lookupA m room).isSome then mapA m room (fun l => addToSet l sid)
  else m ++ [(room, [sid])]

/-- socket.io removes a disconnecting socket from every room before the
`disconnect` handlers run. -/
def leaveAllRooms : RoomMap → String → RoomMap
  | [], _ => []
  | (room, l) :: rest, sid => (room, removeFromSet l sid) :: leaveAllRooms rest sid

/-- One outbound event: recipient socket id and event name. -/
structure Delivery where
  dest : String
  event : String
deriving DecidableEq, Repr

/-- `io.to(room).emit(ev, ...)` expanded against the membership at emission
time: one delivery per member. -/
def emitRoom (m : RoomMap) (room ev : String) : List Delivery :=
  (roomMembers m room).map (fun sid => { dest := sid, event := ev })

/-! ### The mongoose schema validators (`locationTrackingSchema`) -/

/-- `min`/`max` validators on a number path. -/
def ratBetween (lo hi x : Rat) : Bool :=
  decide (lo ≤ x) && decide (x ≤ hi)

/-- A `required` number path with `min`/`max`. -/
def requiredRatIn (lo hi : Rat) : Option Rat → Bool
  | some x => ratBetween lo hi x
  | none => false

/-- An optional number path with `min`/`max`. -/
def optionalRatIn (lo hi : Rat) : Option Rat → Bool
  | some x => ratBetween lo hi x
  | none => true

/-- An optional number path with only `min: 0`. -/
def optionalNonneg : Option Rat → Bool
  | some x => decide (0 ≤ x)
  | none => true

/-- The `networkType` enum of the schema. -/
def validNetworkType : Option String → Bool
  | some t => ["wifi", "4g", "5g", "3g", "2g", "unknown"].contains t
  | none => true

/-- Schema validation run by `save()` on a `LocationTracking` document:
latitude required in [-90, 90], longitude required in [-180, 180],
accuracy/speed nonnegative, heading in [0, 360], timestamp required (its
`default: Date.now` has already filled it), batteryLevel in [0, 100],
networkType in the enum. -/
def validTrackingDoc (d : TrackingDoc) : Bool :=
  requiredRatIn (-90) 90 d.latitude
  && requiredRatIn (-180) 180 d.longitude
  && optionalNonneg d.accuracy
  && optionalNonneg d.speed
  && optionalRatIn 0 360 d.heading
  && d.timestamp.isSome
  && optionalRatIn 0 100 d.batteryLevel
  && validNetworkType d.networkType

/-- The new `LocationTracking` document built from a `location_update`
payload (the `else` branch of `updateLocationInDatabase`); the schema default
fills a missing timestamp with the current time. -/
def docOfData (now : Nat) (data : RealtimeLocationData) : TrackingDoc :=
  { userId := data.userId
    organizationId := data.organizationId
    latitude := data.latitude
    longitude := data.longitude
    accuracy := data.accuracy
    altitude := data.altitude
    speed := data.speed
    heading := data.heading
    timestamp := some (data.timestamp.getD now)
    deviceInfo := data.deviceInfo
    batteryLevel := data.batteryLevel
    networkType := data.networkType
    isActive := data.isActive }

/-- The update the `if (existingTracking)` branch applies before `save()`:
location, batteryLevel, networkType, deviceInfo and isActive are replaced
(userId and organizationId stay). -/
def updateDocWith (now : Nat) (old : TrackingDoc) (data : RealtimeLocationData) :
    TrackingDoc :=
  { old with
    latitude := data.latitude
    longitude := data.longitude
    accuracy := data.accuracy
    altitude := data.altitude
    speed := data.speed
    heading := data.heading
    timestamp := some (data.timestamp.getD now)
    deviceInfo := data.deviceInfo
    batteryLevel := data.batteryLevel
    networkType := data.networkType
    isActive := data.isActive }

/-- `LocationTracking.findOne({ userId, isActive: true })`. -/
def findActiveDoc (db : List TrackingDoc) (userId : String) : Option TrackingDoc :=
  db.find? (fun d => d.userId == userId && d.isActive)

/-- Replace the first active document of `userId` (what saving the document
returned by `findOne` does). -/
def replaceActiveDoc : List TrackingDoc → String → TrackingDoc → List TrackingDoc
  | [], _, _ => []
  | d :: rest, userId, nd =>
      if d.userId == userId && d.isActive then nd :: rest
      else d :: replaceActiveDoc rest userId nd

/-- Per-event environment: the wall clock for `new Date()`, whether the
durable store's I/O succeeds, and the user ids `User.findById` resolves. -/
structure Env where
  now : Nat
  dbOk : Bool
  users : List String
deriving DecidableEq, Repr

/-- `updateLocationInDatabase`: find the active tracking document of
`data.userId`; update it, or create a new one; `save()` validates against
the schema and the store call itself can fail (`dbOk`). -/
def updateLocationInDatabase (env : Env) (db : List TrackingDoc)
    (data : RealtimeLocationData) : Except Unit (List TrackingDoc) :=
  if !env.dbOk then .error ()
  else match findActiveDoc db data.userId with
    | some old =>
        let nd := updateDocWith env.now old data
        if validTrackingDoc nd then .ok (replaceActiveDoc db data.userId nd)
        else .error ()
    | none =>
        let nd := docOfData env.now data
        if validTrackingDoc nd then .ok (db ++ [nd]) else .error ()

/-- The document `startTrackingInDatabase` inserts when the user has no
active tracking document: location (0, 0) at the current time, active. -/
def freshTrackingDoc (now : Nat) (userId organizationId : String) : TrackingDoc :=
  { userId := userId
    organizationId := organizationId
    latitude := some 0
    longitude := some 0
    accuracy := none
    altitude := none
    speed := none
    heading := none
    timestamp := some now
    deviceInfo := none
    batteryLevel := none
    networkType := none
    isActive := true }

/-- `startTrackingInDatabase`: `User.findById` must resolve (else the thrown
`User not found` rejects the event); then the active tracking document is
re-activated or a fresh one inserted. -/
def startTrackingInDatabase (env : Env) (db : List TrackingDoc)
    (userId organizationId : String) : Except Unit (List TrackingDoc) :=
  if !env.dbOk then .error ()
  else if !(env.users.contains userId) then .error ()
  else match findActiveDoc db userId with
    | some old =>
        let nd := { old with isActive := true }
        if validTrackingDoc nd then .ok (replaceActiveDoc db userId nd)
        else .error ()
    | none => .ok (db ++ [freshTrackingDoc env.now userId organizationId])

/-- `stopTrackingInDatabase`: deactivate the active tracking document if one
exists; silently succeed otherwise. -/
def stopTrackingInDatabase (env : Env) (db : List TrackingDoc)
    (userId : String) : Except Unit (List TrackingDoc) :=
  if !env.dbOk then .error ()
  else match findActiveDoc db userId with
    | some old =>
        let nd := { old with isActive := false }
        if validTrackingDoc nd then .ok (replaceActiveDoc db userId nd)
        else .error ()
    | none => .ok db

/-! ### The service state and the event handlers -/

/-- The static state of `RealtimeTrackingService` plus the socket.io room
membership and the `LocationTracking` collection. -/
structure ServerState where
  activeConnections : List (String × SocketRoom)
  organizationRooms : List (String × List String)
  ioRooms : RoomMap
  db : List TrackingDoc
deriving DecidableEq, Repr

/-- The full effect of one inbound event: the new state, the deliveries in
emission order, and the persistence functions invoked. -/
structure StepResult where
  state : ServerState
  sent : List Delivery
  calls : List String
deriving DecidableEq, Repr

/-- The `authenticate` handler: on a verified token, join the `user_*` and
`org_*` socket.io rooms, store the connection record (isTracking false,
lastUpdate now) and add the socket to the organization's subscriber set,
creating the set on first join; on a bad token only `auth_error` goes back. -/
def onAuthenticate (env : Env) (sid : String) (decoded : Option Identity)
    (s : ServerState) : StepResult :=
  match decoded with
  | none => ⟨s, [⟨sid, "auth_error"⟩], []⟩
  | some id =>
      let rooms1 := joinRoom s.ioRooms ("user_" ++ id.userId) sid
      let rooms2 := joinRoom rooms1 ("org_" ++ id.organizationId) sid
      let reg := setA s.activeConnections sid
        { userId := id.userId
          organizationId := id.organizationId
          socketId := sid
          isTracking := false
          lastUpdate := env.now }
      let orgs0 :=
        if (lookupA s.organizationRooms id.organizationId).isSome then
          s.organizationRooms
        else s.organizationRooms ++ [(id.organizationId, [])]
      let orgs := mapA orgs0 id.organizationId (fun l => addToSet l sid)
      ⟨{ s with ioRooms := rooms2, activeConnections := reg,
                organizationRooms := orgs },
       [⟨sid, "authenticated"⟩], []⟩

/-- The `location_update` handler: reject when the socket is not in
`activeConnections`; await the database update (schema validation and store
I/O, a failure lands in the catch block that emits `error` to the sender and
nothing else); then broadcast `location_updated` to the sender's `org_*`
room and `delivery_location_update` to `customer_<data.userId>`, and set
isTracking to the payload's isActive and lastUpdate to now. -/
def onLocationUpdate (env : Env) (sid : String) (data : RealtimeLocationData)
    (s : ServerState) : StepResult :=
  match lookupA s.activeConnections sid with
  | none => ⟨s, [⟨sid, "error"⟩], []⟩
  | some rec =>
      match updateLocationInDatabase env s.db data with
      | .error _ => ⟨s, [⟨sid, "error"⟩], ["updateLocationInDatabase"]⟩
      | .ok db' =>
          let sent :=
            emitRoom s.ioRooms ("org_" ++ rec.organizationId) "location_updated"
            ++ emitRoom s.ioRooms ("customer_" ++ data.userId)
                 "delivery_location_update"
          let reg := setA s.activeConnections sid
            { rec with isTracking := data.isActive, lastUpdate := env.now }
          ⟨{ s with db := db', activeConnections := reg }, sent,
           ["updateLocationInDatabase"]⟩

/-- The `start_tracking` handler: reject when unauthenticated; await the
database call (a failure emits `error` and nothing else); set isTracking
true (lastUpdate untouched); broadcast `tracking_started` to the `org_*`
room; join `customer_<userId>` and broadcast `delivery_tracking_started`
there (the sender has just joined, so it is a recipient too); ack the
sender. -/
def onStartTracking (env : Env) (sid : String) (userId : String)
    (s : ServerState) : StepResult :=
  match lookupA s.activeConnections sid with
  | none => ⟨s, [⟨sid, "error"⟩], []⟩
  | some rec =>
      match startTrackingInDatabase env s.db userId rec.organizationId with
      | .error _ => ⟨s, [⟨sid, "error"⟩], ["startTrackingInDatabase"]⟩
      | .ok db' =>
          let reg := setA s.activeConnections sid { rec with isTracking := true }
          let rooms' := joinRoom s.ioRooms ("customer_" ++ userId) sid
          let sent :=
            emitRoom s.ioRooms ("org_" ++ rec.organizationId) "tracking_started"
            ++ emitRoom rooms' ("customer_" ++ userId) "delivery_tracking_started"
            ++ [⟨sid, "tracking_started"⟩]
          ⟨{ s with db := db', activeConnections := reg, ioRooms := rooms' },
           sent, ["startTrackingInDatabase"]⟩

/-- The `stop_tracking` handler: reject when unauthenticated; await the
database call; set isTracking false (lastUpdate untouched); broadcast
`tracking_stopped` to the `org_*` room; ack the sender. -/
def onStopTracking (env : Env) (sid : String) (userId : String)
    (s : ServerState) : StepResult :=
  match lookupA s.activeConnections sid with
  | none => ⟨s, [⟨sid, "error"⟩], []⟩
  | some rec =>
      match stopTrackingInDatabase env s.db userId with
      | .error _ => ⟨s, [⟨sid, "error"⟩], ["stopTrackingInDatabase"]⟩
      | .ok db' =>
          let reg := setA s.activeConnections sid { rec with isTracking := false }
          let sent :=
            emitRoom s.ioRooms ("org_" ++ rec.organizationId) "tracking_stopped"
            ++ [⟨sid, "tracking_stopped"⟩]
          ⟨{ s with db := db', activeConnections := reg }, sent,
           ["stopTrackingInDatabase"]⟩

/-- The `emergency_request` handler: reject when unauthenticated;
`createEmergencyRequest` only assembles the event object (no store write);
broadcast `emergency_alert` to the `org_*` room and ack the sender. No state
changes. -/
def onEmergencyRequest (_env : Env) (sid : String) (s : ServerState) :
    StepResult :=
  match lookupA s.activeConnections sid with
  | none => ⟨s, [⟨sid, "error"⟩], []⟩
  | some rec =>
      let sent :=
        emitRoom s.ioRooms ("org_" ++ rec.organizationId) "emergency_alert"
        ++ [⟨sid, "emergency_sent"⟩]
      ⟨s, sent, ["createEmergencyRequest"]⟩

/-- The transport `disconnect`: socket.io has already removed the socket
from every socket.io room; the handler then, for a registered connection,
deletes the socket from its organization's subscriber set (removing the
set when it becomes empty), broadcasts `user_disconnected` to the `org_*`
room if the connection was tracking, and deletes the registry entry. A
socket never registered is ignored. -/
def onDisconnect (sid : String) (s : ServerState) : StepResult :=
  let rooms := leaveAllRooms s.ioRooms sid
  match lookupA s.activeConnections sid with
  | none => ⟨{ s with ioRooms := rooms }, [], []⟩
  | some rec =>
      let orgs :=
        match lookupA s.organizationRooms rec.organizationId with
        | none => s.organizationRooms
        | some l =>
            let l' := removeFromSet l sid
            if l'.isEmpty then eraseA s.organizationRooms rec.organizationId
            else mapA s.organizationRooms rec.organizationId (fun _ => l')
      let sent :=
        if rec.isTracking then
          emitRoom rooms ("org_" ++ rec.organizationId) "user_disconnected"
        else []
      ⟨{ s with ioRooms := rooms, organizationRooms := orgs,
                activeConnections := eraseA s.activeConnections sid },
       sent, []⟩

/-- One inbound socket.io event of the service. The emergency payload's
location and message do not influence state or routing, so they are not
carried. -/
inductive ClientEvent where
  | authenticate (decoded : Option Identity)
  | locationUpdate (data : RealtimeLocationData)
  | startTracking (userId : String)
  | stopTracking (userId : String)
  | emergencyRequest
  | disconnect
deriving DecidableEq, Repr

/-- Dispatch one inbound event to its handler. -/
def handleEvent (env : Env) (sid : String) (ev : ClientEvent)
    (s : ServerState) : StepResult :=
  match ev with
  | .authenticate decoded => onAuthenticate env sid decoded s
  | .locationUpdate data => onLocationUpdate env sid data s
  | .startTracking userId => onStartTracking env sid userId s
  | .stopTracking userId => onStopTracking env sid userId s
  | .emergencyRequest => onEmergencyRequest env sid s
  | .disconnect => onDisconnect sid s

/-- One step of a trace: the environment, the socket the event arrives on,
and the event. -/
structure Input where
  env : Env
  sid : String
  ev : ClientEvent
deriving DecidableEq, Repr

/-- Run a trace of inbound events. -/
def runSteps : ServerState → List Input → ServerState
  | s, [] => s
  | s, i :: rest => runSteps (handleEvent i.env i.sid i.ev s).state rest

/-- The state at process start: no connections, no rooms, a given store. -/
def initState (db0 : List TrackingDoc) : ServerState :=
  { activeConnections := [], organizationRooms := [], ioRooms := [], db := db0 }

/-- True when the next authenticate event on `sid` (if that is what `ev` is)
does not switch an already-registered connection to a different
organization. -/
def authGuardOk (s : ServerState) (sid : String) : ClientEvent → Bool
  | .authenticate (some id) =>
      match lookupA s.activeConnections sid with
      | some rec => rec.organizationId == id.organizationId
      | none => true
  | _ => true

/-- True when, along the whole trace from `s`, no connection re-authenticates
into a different organization while registered. -/
def noOrgSwitch : ServerState → List Input → Bool
  | _, [] => true
  | s, i :: rest =>
      authGuardOk s i.sid i.ev
      && noOrgSwitch (handleEvent i.env i.sid i.ev s).state rest

/-- Every organization key of the subscriber-set map holds a nonempty set. -/
def noEmptyOrg (s : ServerState) : Bool :=
  s.organizationRooms.all (fun kv => !kv.2.isEmpty)

/-- Every member of an organization subscriber set is a registered connection
whose identity carries exactly that organization id. -/
def RoomsRegistered (s : ServerState) : Prop :=
  ∀ org l sid, (org, l) ∈ s.organizationRooms → sid ∈ l →
    ∃ rec, lookupA s.activeConnections sid = some rec
      ∧ rec.organizationId = org

/-! ### Concrete instances used by witnesses and counterexamples -/

/-- An environment whose store calls succeed. -/
def envT : Env := { now := 5, dbOk := true, users := ["u1", "u2"] }

/-- A later tick with a working store. -/
def envT9 : Env := { now := 9, dbOk := true, users := ["u1", "u2"] }

/-- An environment whose durable-store calls fail. -/
def envF : Env := { now := 7, dbOk := false, users := ["u1", "u2"] }

/-- User u1 of organization org1. -/
def idA : Identity := { userId := "u1", organizationId := "org1" }

/-- The same user decoded with organization org2. -/
def idB : Identity := { userId := "u1", organizationId := "org2" }

/-- User u2 of organization org2. -/
def idC : Identity := { userId := "u2", organizationId := "org2" }

/-- A well-formed `location_update` payload of u1. -/
def goodData : RealtimeLocationData :=
  { userId := "u1", organizationId := "org1", latitude := some 10,
    longitude := some 20, accuracy := none, altitude := none, speed := none,
    heading := none, timestamp := some 5, deviceInfo := none,
    batteryLevel := none, networkType := none, isActive := true }

/-- A payload with latitude 95, outside [-90, 90]. -/
def badData : RealtimeLocationData :=
  { goodData with latitude := some 95 }

/-- A well-formed payload of u2. -/
def goodData2 : RealtimeLocationData :=
  { goodData with userId := "u2", organizationId := "org2" }

/-- The state after socket s1 authenticates as u1/org1. -/
def stateAuth1 : ServerState :=
  runSteps (initState []) [⟨envT, "s1", .authenticate (some idA)⟩]

/-- The state after socket s1 authenticates as u1/org1 and then
re-authenticates as u1/org2. -/
def stateReauth : ServerState :=
  runSteps (initState [])
    [⟨envT, "s1", .authenticate (some idA)⟩,
     ⟨envT, "s1", .authenticate (some idB)⟩]

/-- stateReauth followed by a second socket s2 authenticating as u2/org2. -/
def stateReauthPlus : ServerState :=
  runSteps (initState [])
    [⟨envT, "s1", .authenticate (some idA)⟩,
     ⟨envT, "s1", .authenticate (some idB)⟩,
     ⟨envT, "s2", .authenticate (some idC)⟩]

/-- A trace without re-authentication: two sockets of two organizations. -/
def plainTrace : List Input :=
  [⟨envT, "s1", .authenticate (some idA)⟩,
   ⟨envT, "s2", .authenticate (some idC)⟩]

/-- The state after the re-authenticated socket s1 disconnects. -/
def stateReauthGone : ServerState :=
  (handleEvent envT "s1" ClientEvent.disconnect stateReauth).state

/-- The effect of a valid location_update sent by s1 while the store fails. -/
def c5Result : StepResult :=
  handleEvent envF "s1" (ClientEvent.locationUpdate goodData) stateAuth1

/-- The state after s1 (authenticated at tick 5) runs start_tracking at
tick 9. -/
def c9State : ServerState :=
  (handleEvent envT9 "s1" (ClientEvent.startTracking "u1") stateAuth1).state

/-! ### Association-list lemmas -/

theorem lookupA_some_mem {α : Type} {m : List (String × α)} {k : String}
    {v : α} (h : lookupA m k = some v) : (k, v) ∈ m := by
  induction m with
  | nil => simp [lookupA] at h
  | cons kv rest ih =>
      obtain ⟨k', v'⟩ := kv
      by_cases hk : k' = k
      · subst hk
        simp [lookupA] at h
        simp [h]
      · simp [lookupA, hk] at h
        exact List.mem_cons_of_mem _ (ih h)

theorem lookupA_none_not_mem {α : Type} {m : List (String × α)} {k : String}
    (h : lookupA m k = none) : ∀ v, (k, v) ∉ m := by
  induction m with
  | nil => simp
  | cons kv rest ih =>
      obtain ⟨k', v'⟩ := kv
      by_cases hk : k' = k
      · subst hk; simp [lookupA] at h
      · simp [lookupA, hk] at h
        intro v hv
        rcases List.mem_cons.mp hv with heq | hmem
        · exact hk (congrArg Prod.fst heq).symm
        · exact ih h v hmem

theorem lookupA_append_of_none {α : Type} {m : List (String × α)} {k : String}
    (m' : List (String × α)) (h : lookupA m k = none) :
    lookupA (m ++ m') k = lookupA m' k := by
  induction m with
  | nil => simp
  | cons kv rest ih =>
      obtain ⟨k', v'⟩ := kv
      by_cases hk : k' = k
      · subst hk; simp [lookupA] at h
      · simp [lookupA, hk] at h ⊢
        exact ih h

theorem lookupA_mapA_self {α : Type} (m : List (String × α)) (k : String)
    (f : α → α) : lookupA (mapA m k f) k = (lookupA m k).map f := by
  induction m with
  | nil => simp [lookupA, mapA]
  | cons kv rest ih =>
      obtain ⟨k', v'⟩ := kv
      by_cases hk : k' = k
      · subst hk
        simp [lookupA, mapA]
      · simp [lookupA, mapA, hk]
        exact ih

theorem lookupA_mapA_ne {α : Type} (m : List (String × α)) {k k' : String}
    (f : α → α) (h : k' ≠ k) :
    lookupA (mapA m k f) k' = lookupA m k' := by
  induction m with
  | nil => simp [lookupA, mapA]
  | cons kv rest ih =>
      obtain ⟨k0, v0⟩ := kv
      by_cases hk' : k0 = k'
      · subst hk'
        simp [lookupA, mapA, h]
      · simp [lookupA, mapA, hk']
        exact ih

theorem setA_eq_mapA_of_some {α : Type} {m : List (String × α)} {k : String}
    (v : α) (h : (lookupA m k).isSome) :
    setA m k v = mapA m k (fun _ => v) := by
  simp [setA, h, mapA]

theorem setA_eq_append_of_none {α : Type} {m : List (String × α)} {k : String}
    (v : α) (h : lookupA m k = none) :
    setA m k v = m ++ [(k, v)] := by
  simp [setA, h]

theorem lookupA_setA_self {α : Type} (m : List (String × α)) (k : String)
    (v : α) : lookupA (setA m k v) k = some v := by
  cases hx : lookupA m k with
  | none =>
      rw [setA_eq_append_of_none v hx, lookupA_append_of_none _ hx]
      simp [lookupA]
  | some v0 =>
      rw [setA_eq_mapA_of_some v (by simp [hx]), lookupA_mapA_self, hx]
      rfl

theorem lookupA_append_singleton_ne {α : Type} (m : List (String × α))
    {k k' : String} (v : α) (h : k' ≠ k) :
    lookupA (m ++ [(k, v)]) k' = lookupA m k' := by
  induction m with
  | nil =>
      have hne : ¬ (k = k') := fun he => h he.symm
      simp [lookupA, hne]
  | cons kv rest ih =>
      obtain ⟨k0, v0⟩ := kv
      by_cases hk : k0 = k'
      · subst hk; simp [lookupA]
      · simp [lookupA, hk]
        exact ih

theorem lookupA_setA_ne {α : Type} (m : List (String × α)) {k k' : String}
    (v : α) (h : k' ≠ k) : lookupA (setA m k v) k' = lookupA m k' := by
  cases hx : lookupA m k with
  | none =>
      rw [setA_eq_append_of_none v hx]
      exact lookupA_append_singleton_ne m v h
  | some v0 =>
      rw [setA_eq_mapA_of_some v (by simp [hx]), lookupA_mapA_ne _ _ h]

theorem lookupA_eraseA_self {α : Type} (m : List (String × α)) (k : String) :
    lookupA (eraseA m k) k = none := by
  induction m with
  | nil => simp [lookupA, eraseA]
  | cons kv rest ih =>
      obtain ⟨k0, v0⟩ := kv
      by_cases hk : k0 = k <;> simp [lookupA, eraseA, hk] at ih ⊢ <;> exact ih

theorem lookupA_eraseA_ne {α : Type} (m : List (String × α)) {k k' : String}
    (h : k' ≠ k) : lookupA (eraseA m k) k' = lookupA m k' := by
  induction m with
  | nil => simp [lookupA, eraseA]
  | cons kv rest ih =>
      obtain ⟨k0, v0⟩ := kv
      by_cases hk : k0 = k
      · subst hk
        have : ¬ (k0 = k') := fun he => h he.symm
        simp [lookupA, eraseA, this] at ih ⊢
        exact ih
      · by_cases hk' : k0 = k'
        · subst hk'; simp [lookupA, eraseA, hk]
        · simp [lookupA, eraseA, hk, hk'] at ih ⊢
          exact ih

theorem mem_addToSet {l : List String} {x y : String} :
    y ∈ addToSet l x ↔ y ∈ l ∨ y = x := by
  unfold addToSet
  split
  · rename_i h
    have hx : x ∈ l := by simpa using h
    exact ⟨Or.inl, fun hy => hy.elim id (fun he => he ▸ hx)⟩
  · simp

theorem addToSet_not_isEmpty (l : List String) (x : String) :
    (addToSet l x).isEmpty = false := by
  unfold addToSet
  split
  · rename_i h
    have hx : x ∈ l := by simpa using h
    cases l with
    | nil => simp at hx
    | cons a t => rfl
  · cases l with
    | nil => rfl
    | cons a t => rfl

theorem not_mem_removeFromSet (l : List String) (x : String) :
    x ∉ removeFromSet l x := by
  simp [removeFromSet]

theorem mem_of_mem_removeFromSet {l : List String} {x y : String}
    (h : y ∈ removeFromSet l x) : y ∈ l := by
  simp [removeFromSet] at h
  exact h.1

theorem removeFromSet_eq_self {l : List String} {x : String} (h : x ∉ l) :
    removeFromSet l x = l := by
  unfold removeFromSet
  rw [List.filter_eq_self]
  intro a ha
  simp
  intro he
  exact h (he ▸ ha)

theorem mem_mapA {α : Type} {m : List (String × α)} {k : String} {f : α → α}
    {kv' : String × α} (h : kv' ∈ mapA m k f) :
    ∃ kv, kv ∈ m ∧ kv' = (kv.1, if kv.1 == k then f kv.2 else kv.2) := by
  induction m with
  | nil => simp [mapA] at h
  | cons kv0 rest ih =>
      obtain ⟨k0, v0⟩ := kv0
      rcases List.mem_cons.mp h with he | hm
      · exact ⟨(k0, v0), List.mem_cons_self _ _, he⟩
      · obtain ⟨kv, hkv, heq⟩ := ih hm
        exact ⟨kv, List.mem_cons_of_mem _ hkv, heq⟩

theorem mem_eraseA {α : Type} {m : List (String × α)} {k : String}
    {kv' : String × α} (h : kv' ∈ eraseA m k) : kv' ∈ m ∧ kv'.1 ≠ k := by
  induction m with
  | nil => simp [eraseA] at h
  | cons kv0 rest ih =>
      obtain ⟨k0, v0⟩ := kv0
      by_cases hk : k0 = k
      · subst hk
        simp only [eraseA, beq_self_eq_true, if_true] at h
        obtain ⟨hm, hne⟩ := ih h
        exact ⟨List.mem_cons_of_mem _ hm, hne⟩
      · simp only [eraseA] at h
        rw [if_neg (by simpa using hk)] at h
        rcases List.mem_cons.mp h with he | hm
        · subst he; exact ⟨List.mem_cons_self _ _, hk⟩
        · obtain ⟨hm', hne⟩ := ih hm
          exact ⟨List.mem_cons_of_mem _ hm', hne⟩

theorem mem_leaveAllRooms {m : RoomMap} {sid : String} {kv' : String × List String}
    (h : kv' ∈ leaveAllRooms m sid) :
    ∃ l0, (kv'.1, l0) ∈ m ∧ kv'.2 = removeFromSet l0 sid := by
  induction m with
  | nil => simp [leaveAllRooms] at h
  | cons kv0 rest ih =>
      obtain ⟨room, l⟩ := kv0
      rcases List.mem_cons.mp h with he | hm
      · subst he
        exact ⟨l, List.mem_cons_self _ _, rfl⟩
      · obtain ⟨l0, hm', heq⟩ := ih hm
        exact ⟨l0, List.mem_cons_of_mem _ hm', heq⟩

theorem leaveAllRooms_eq_self {m : RoomMap} {sid : String}
    (h : ∀ room members, (room, members) ∈ m → sid ∉ members) :
    leaveAllRooms m sid = m := by
  induction m with
  | nil => rfl
  | cons kv0 rest ih =>
      obtain ⟨room, l⟩ := kv0
      unfold leaveAllRooms
      rw [removeFromSet_eq_self (h room l (List.mem_cons_self _ _))]
      rw [ih (fun r ms hm => h r ms (List.mem_cons_of_mem _ hm))]

theorem not_mem_roomMembers_leaveAllRooms (m : RoomMap) (sid room : String) :
    sid ∉ roomMembers (leaveAllRooms m sid) room := by
  unfold roomMembers
  cases hx : lookupA (leaveAllRooms m sid) room with
  | none => simp
  | some l =>
      obtain ⟨l0, _, heq⟩ := mem_leaveAllRooms (lookupA_some_mem hx)
      have heq' : l = removeFromSet l0 sid := heq
      simp only [Option.getD_some]
      rw [heq']
      exact not_mem_removeFromSet l0 sid

theorem count_emitRoom_self (rooms : RoomMap) (room ev x : String) :
    (emitRoom rooms room ev).count ⟨x, ev⟩
      = (roomMembers rooms room).count x := by
  unfold emitRoom
  induction roomMembers rooms room with
  | nil => rfl
  | cons a t ih =>
      by_cases hx : a = x
      · subst hx
        simp [List.count_cons, ih]
      · simp [List.count_cons, ih, hx, Delivery.mk.injEq]

theorem count_emitRoom_ne (rooms : RoomMap) (room ev ev' x : String)
    (h : ev ≠ ev') : (emitRoom rooms room ev).count ⟨x, ev'⟩ = 0 := by
  rw [List.count_eq_zero]
  intro hm
  unfold emitRoom at hm
  obtain ⟨a, _, heq⟩ := List.mem_map.mp hm
  exact h ((Delivery.mk.injEq _ _ _ _).mp heq).2

/-! ### Preservation of the no-empty-subscriber-set invariant (C8) -/

theorem noEmptyOrg_eq (s : ServerState) :
    noEmptyOrg s = true
      ↔ ∀ kv ∈ s.organizationRooms, kv.2.isEmpty = false := by
  simp [noEmptyOrg, List.all_eq_true]

theorem noEmptyOrg_step (env : Env) (sid : String) (ev : ClientEvent)
    (s : ServerState) (h : noEmptyOrg s = true) :
    noEmptyOrg (handleEvent env sid ev s).state = true := by
  have h' := (noEmptyOrg_eq s).mp h
  cases ev with
  | authenticate decoded =>
      cases decoded with
      | none => exact h
      | some id =>
          simp only [handleEvent, onAuthenticate]
          rw [noEmptyOrg_eq]
          intro kv' hkv'
          obtain ⟨kv, hkvm, heq⟩ := mem_mapA hkv'
          rw [heq]
          by_cases hk : kv.1 = id.organizationId
          · simp only [if_pos (by simpa using hk : (kv.1 == id.organizationId) = true)]
            exact addToSet_not_isEmpty kv.2 sid
          · simp only [if_neg (by simpa using hk : ¬ (kv.1 == id.organizationId) = true)]
            by_cases hs : (lookupA s.organizationRooms id.organizationId).isSome
            · rw [if_pos hs] at hkvm
              exact h' kv hkvm
            · rw [if_neg hs] at hkvm
              rcases List.mem_append.mp hkvm with hm | hm
              · exact h' kv hm
              · have : kv = (id.organizationId, []) := by simpa using hm
                exact absurd (congrArg Prod.fst this) hk
  | locationUpdate data =>
      cases hx : lookupA s.activeConnections sid with
      | none => simp only [handleEvent, onLocationUpdate, hx]; exact h
      | some rec =>
          cases hu : updateLocationInDatabase env s.db data with
          | error e => simp only [handleEvent, onLocationUpdate, hx, hu]; exact h
          | ok db' => simp only [handleEvent, onLocationUpdate, hx, hu]; exact h
  | startTracking u =>
      cases hx : lookupA s.activeConnections sid with
      | none => simp only [handleEvent, onStartTracking, hx]; exact h
      | some rec =>
          cases hu : startTrackingInDatabase env s.db u rec.organizationId with
          | error e => simp only [handleEvent, onStartTracking, hx, hu]; exact h
          | ok db' => simp only [handleEvent, onStartTracking, hx, hu]; exact h
  | stopTracking u =>
      cases hx : lookupA s.activeConnections sid with
      | none => simp only [handleEvent, onStopTracking, hx]; exact h
      | some rec =>
          cases hu : stopTrackingInDatabase env s.db u with
          | error e => simp only [handleEvent, onStopTracking, hx, hu]; exact h
          | ok db' => simp only [handleEvent, onStopTracking, hx, hu]; exact h
  | emergencyRequest =>
      cases hx : lookupA s.activeConnections sid with
      | none => simp only [handleEvent, onEmergencyRequest, hx]; exact h
      | some rec => simp only [handleEvent, onEmergencyRequest, hx]; exact h
  | disconnect =>
      cases hx : lookupA s.activeConnections sid with
      | none => simp only [handleEvent, onDisconnect, hx]; exact h
      | some rec =>
          cases ho : lookupA s.organizationRooms rec.organizationId with
          | none => simp only [handleEvent, onDisconnect, hx, ho]; exact h
          | some l =>
              cases he : (removeFromSet l sid).isEmpty with
              | true =>
                  simp only [handleEvent, onDisconnect, hx, ho, he, if_true]
                  rw [noEmptyOrg_eq]
                  intro kv hkv
                  exact h' kv (mem_eraseA hkv).1
              | false =>
                  simp only [handleEvent, onDisconnect, hx, ho, he,
                    Bool.false_eq_true, if_false]
                  rw [noEmptyOrg_eq]
                  intro kv' hkv'
                  obtain ⟨kv, hkvm, heq⟩ := mem_mapA hkv'
                  rw [heq]
                  by_cases hk : kv.1 = rec.organizationId
                  · simp only
                      [if_pos (by simpa using hk : (kv.1 == rec.organizationId) = true)]
                    exact he
                  · simp only
                      [if_neg (by simpa using hk : ¬ (kv.1 == rec.organizationId) = true)]
                    exact h' kv hkvm

theorem noEmptyOrg_runSteps (is : List Input) :
    ∀ s : ServerState, noEmptyOrg s = true
      → noEmptyOrg (runSteps s is) = true := by
  induction is with
  | nil => intro s h; exact h
  | cons i rest ih =>
      intro s h
      exact ih _ (noEmptyOrg_step i.env i.sid i.ev s h)

/-! ### Preservation of room-membership registration (C3, guarded) -/

theorem roomsRegistered_step (env : Env) (sid : String) (ev : ClientEvent)
    (s : ServerState) (hg : authGuardOk s sid ev = true)
    (h : RoomsRegistered s) :
    RoomsRegistered (handleEvent env sid ev s).state := by
  cases ev with
  | authenticate decoded =>
      cases decoded with
      | none => exact h
      | some id =>
          simp only [handleEvent, onAuthenticate]
          intro org l sid' hmem hin
          obtain ⟨kv, hkvm, heq⟩ := mem_mapA hmem
          have horg : org = kv.1 := congrArg Prod.fst heq
          have hl : l = (if kv.1 == id.organizationId then addToSet kv.2 sid
              else kv.2) := congrArg Prod.snd heq
          by_cases hk : kv.1 = id.organizationId
          · rw [hl, if_pos (by simpa using hk : (kv.1 == id.organizationId) = true)]
              at hin
            have hjoin : sid' ∈ kv.2 ∨ sid' = sid := mem_addToSet.mp hin
            by_cases hsid : sid' = sid
            · subst hsid
              refine ⟨_, lookupA_setA_self _ _ _, ?_⟩
              rw [horg, hk]
            · have hold : sid' ∈ kv.2 := hjoin.resolve_right hsid
              have hkv_old : kv ∈ s.organizationRooms := by
                by_cases hs : (lookupA s.organizationRooms id.organizationId).isSome
                · rw [if_pos hs] at hkvm; exact hkvm
                · rw [if_neg hs] at hkvm
                  rcases List.mem_append.mp hkvm with hm | hm
                  · exact hm
                  · have hkv2 : kv = (id.organizationId, []) := by simpa using hm
                    rw [hkv2] at hold
                    exact absurd hold (List.not_mem_nil sid')
              obtain ⟨rec0, hr0, ho0⟩ :=
                h kv.1 kv.2 sid' (by rw [Prod.mk.eta]; exact hkv_old) hold
              exact ⟨rec0, by rw [lookupA_setA_ne _ _ hsid]; exact hr0,
                by rw [horg]; exact ho0⟩
          · rw [hl, if_neg (by simpa using hk : ¬ (kv.1 == id.organizationId) = true)]
              at hin
            have hkv_old : kv ∈ s.organizationRooms := by
              by_cases hs : (lookupA s.organizationRooms id.organizationId).isSome
              · rw [if_pos hs] at hkvm; exact hkvm
              · rw [if_neg hs] at hkvm
                rcases List.mem_append.mp hkvm with hm | hm
                · exact hm
                · have hkv2 : kv = (id.organizationId, []) := by simpa using hm
                  exact absurd (congrArg Prod.fst hkv2) hk
            obtain ⟨rec0, hr0, ho0⟩ :=
              h kv.1 kv.2 sid' (by rw [Prod.mk.eta]; exact hkv_old) hin
            by_cases hsid : sid' = sid
            · subst hsid
              unfold authGuardOk at hg
              rw [hr0] at hg
              have : rec0.organizationId = id.organizationId := by simpa using hg
              exact absurd (ho0 ▸ this) hk
            · exact ⟨rec0, by rw [lookupA_setA_ne _ _ hsid]; exact hr0,
                by rw [horg]; exact ho0⟩
  | locationUpdate data =>
      cases hx : lookupA s.activeConnections sid with
      | none => simp only [handleEvent, onLocationUpdate, hx]; exact h
      | some rec =>
          cases hu : updateLocationInDatabase env s.db data with
          | error e => simp only [handleEvent, onLocationUpdate, hx, hu]; exact h
          | ok db' =>
              simp only [handleEvent, onLocationUpdate, hx, hu]
              intro org l sid' hmem hin
              obtain ⟨rec0, hr0, ho0⟩ := h org l sid' hmem hin
              by_cases hsid : sid' = sid
              · subst hsid
                rw [hx] at hr0
                obtain rfl : rec = rec0 := by injection hr0
                exact ⟨_, lookupA_setA_self _ _ _, ho0⟩
              · exact ⟨rec0, by rw [lookupA_setA_ne _ _ hsid]; exact hr0, ho0⟩
  | startTracking u =>
      cases hx : lookupA s.activeConnections sid with
      | none => simp only [handleEvent, onStartTracking, hx]; exact h
      | some rec =>
          cases hu : startTrackingInDatabase env s.db u rec.organizationId with
          | error e => simp only [handleEvent, onStartTracking, hx, hu]; exact h
          | ok db' =>
              simp only [handleEvent, onStartTracking, hx, hu]
              intro org l sid' hmem hin
              obtain ⟨rec0, hr0, ho0⟩ := h org l sid' hmem hin
              by_cases hsid : sid' = sid
              · subst hsid
                rw [hx] at hr0
                obtain rfl : rec = rec0 := by injection hr0
                exact ⟨_, lookupA_setA_self _ _ _, ho0⟩
              · exact ⟨rec0, by rw [lookupA_setA_ne _ _ hsid]; exact hr0, ho0⟩
  | stopTracking u =>
      cases hx : lookupA s.activeConnections sid with
      | none => simp only [handleEvent, onStopTracking, hx]; exact h
      | some rec =>
          cases hu : stopTrackingInDatabase env s.db u with
          | error e => simp only [handleEvent, onStopTracking, hx, hu]; exact h
          | ok db' =>
              simp only [handleEvent, onStopTracking, hx, hu]
              intro org l sid' hmem hin
              obtain ⟨rec0, hr0, ho0⟩ := h org l sid' hmem hin
              by_cases hsid : sid' = sid
              · subst hsid
                rw [hx] at hr0
                obtain rfl : rec = rec0 := by injection hr0
                exact ⟨_, lookupA_setA_self _ _ _, ho0⟩
              · exact ⟨rec0, by rw [lookupA_setA_ne _ _ hsid]; exact hr0, ho0⟩
  | emergencyRequest =>
      cases hx : lookupA s.activeConnections sid with
      | none => simp only [handleEvent, onEmergencyRequest, hx]; exact h
      | some rec => simp only [handleEvent, onEmergencyRequest, hx]; exact h
  | disconnect =>
      cases hx : lookupA s.activeConnections sid with
      | none => simp only [handleEvent, onDisconnect, hx]; exact h
      | some rec =>
          simp only [handleEvent, onDisconnect, hx]
          intro org l sid' hmem hin
          by_cases hsid : sid' = sid
          · subst hsid
            exfalso
            cases ho : lookupA s.organizationRooms rec.organizationId with
            | none =>
                simp only [ho] at hmem
                obtain ⟨rec0, hr0, ho0⟩ := h org l sid' hmem hin
                rw [hx] at hr0
                obtain rfl : rec = rec0 := by injection hr0
                exact lookupA_none_not_mem ho l (ho0 ▸ hmem)
            | some l0 =>
                cases he : (removeFromSet l0 sid').isEmpty with
                | true =>
                    simp only [ho, he, if_true] at hmem
                    obtain ⟨hold, hne⟩ := mem_eraseA hmem
                    obtain ⟨rec0, hr0, ho0⟩ := h org l sid' hold hin
                    rw [hx] at hr0
                    obtain rfl : rec = rec0 := by injection hr0
                    exact hne ho0.symm
                | false =>
                    simp only [ho, he, Bool.false_eq_true, if_false] at hmem
                    obtain ⟨kv, hkvm, heq⟩ := mem_mapA hmem
                    have hl : l = (if kv.1 == rec.organizationId
                        then removeFromSet l0 sid' else kv.2) :=
                      congrArg Prod.snd heq
                    by_cases hk : kv.1 = rec.organizationId
                    · rw [hl,
                        if_pos (by simpa using hk :
                          (kv.1 == rec.organizationId) = true)] at hin
                      exact not_mem_removeFromSet l0 sid' hin
                    · rw [hl,
                        if_neg (by simpa using hk :
                          ¬ (kv.1 == rec.organizationId) = true)] at hin
                      obtain ⟨rec0, hr0, ho0⟩ :=
                        h kv.1 kv.2 sid' (by rw [Prod.mk.eta]; exact hkvm) hin
                      rw [hx] at hr0
                      obtain rfl : rec = rec0 := by injection hr0
                      exact hk ho0.symm
          · -- another socket: its membership traces back to an old entry
            have hback : ∃ l1, (org, l1) ∈ s.organizationRooms ∧ sid' ∈ l1 := by
              cases ho : lookupA s.organizationRooms rec.organizationId with
              | none =>
                  simp only [ho] at hmem
                  exact ⟨l, hmem, hin⟩
              | some l0 =>
                  cases he : (removeFromSet l0 sid).isEmpty with
                  | true =>
                      simp only [ho, he, if_true] at hmem
                      exact ⟨l, (mem_eraseA hmem).1, hin⟩
                  | false =>
                      simp only [ho, he, Bool.false_eq_true, if_false] at hmem
                      obtain ⟨kv, hkvm, heq⟩ := mem_mapA hmem
                      have horg : org = kv.1 := congrArg Prod.fst heq
                      have hl : l = (if kv.1 == rec.organizationId
                          then removeFromSet l0 sid else kv.2) :=
                        congrArg Prod.snd heq
                      by_cases hk : kv.1 = rec.organizationId
                      · rw [hl, if_pos (by simpa using hk :
                          (kv.1 == rec.organizationId) = true)] at hin
                        refine ⟨l0, ?_, mem_of_mem_removeFromSet hin⟩
                        rw [horg, hk]
                        exact lookupA_some_mem ho
                      · rw [hl, if_neg (by simpa using hk :
                          ¬ (kv.1 == rec.organizationId) = true)] at hin
                        refine ⟨kv.2, ?_, hin⟩
                        rw [horg, Prod.mk.eta]
                        exact hkvm
            obtain ⟨l1, hm1, hin1⟩ := hback
            obtain ⟨rec0, hr0, ho0⟩ := h org l1 sid' hm1 hin1
            exact ⟨rec0, by rw [lookupA_eraseA_ne _ hsid]; exact hr0, ho0⟩

theorem roomsRegistered_runSteps (is : List Input) :
    ∀ s : ServerState, RoomsRegistered s → noOrgSwitch s is = true →
      RoomsRegistered (runSteps s is) := by
  induction is with
  | nil => intro s h _; exact h
  | cons i rest ih =>
      intro s h hg
      unfold noOrgSwitch at hg
      rw [Bool.and_eq_true] at hg
      obtain ⟨hg1, hg2⟩ := hg
      exact ih _ (roomsRegistered_step i.env i.sid i.ev s hg1 h) hg2

/-- The schema validation of the document saved in the update branch of
`updateLocationInDatabase` agrees with the validation of the freshly built
document: every validated path is replaced by the payload's value. -/
theorem validTrackingDoc_update_eq (now : Nat) (old : TrackingDoc)
    (data : RealtimeLocationData) :
    validTrackingDoc (updateDocWith now old data)
      = validTrackingDoc (docOfData now data) := rfl

/-! ### The claims -/

/-- C1: an authenticated connection's `location_update` whose payload fails
the `locationTrackingSchema` validation (latitude outside [-90, 90],
longitude outside [-180, 180], or a missing required field) is rejected to
the sender only: the single delivery is the `error` event to the sender, so
no `location_updated` or `delivery_location_update` broadcast reaches any
room, and the state — store, registry and rooms — is unchanged, so nothing
is persisted. -/
theorem c1_invalid_location_rejected_to_sender_only (env : Env) (sid : String)
    (data : RealtimeLocationData) (s : ServerState) (rec : SocketRoom)
    (hreg : lookupA s.activeConnections sid = some rec)
    (hbad : validTrackingDoc (docOfData env.now data) = false) :
    handleEvent env sid (.locationUpdate data) s
      = ⟨s, [⟨sid, "error"⟩], ["updateLocationInDatabase"]⟩ := by
  have hupd : updateLocationInDatabase env s.db data = .error () := by
    unfold updateLocationInDatabase
    cases hc : env.dbOk with
    | false => simp
    | true =>
        cases hf : findActiveDoc s.db data.userId with
        | none => simp [hf, hbad]
        | some old => simp [hf, validTrackingDoc_update_eq, hbad]
  simp only [handleEvent, onLocationUpdate, hreg, hupd]

/-- C1 witness: socket s1 (authenticated as u1/org1) sends latitude 95; the
event is rejected to s1 alone and the state is untouched. -/
theorem c1_witness :
    validTrackingDoc (docOfData envT.now badData) = false
    ∧ handleEvent envT "s1" (ClientEvent.locationUpdate badData) stateAuth1
        = ⟨stateAuth1, [⟨"s1", "error"⟩], ["updateLocationInDatabase"]⟩ :=
  ⟨by decide,
   c1_invalid_location_rejected_to_sender_only envT "s1" badData stateAuth1
     ⟨"u1", "org1", "s1", false, 5⟩ (by decide) (by decide)⟩

/-- C2: while a socket is absent from the active-connections registry
(state Unauthenticated), each of `location_update`, `start_tracking`,
`stop_tracking` and `emergency_request` produces exactly one `error` reply
to the sender: no broadcast, no persistence-bridge call, and no change to
the registry, the subscriber sets or the socket.io rooms. -/
theorem c2_unauthenticated_events_only_error (env : Env) (sid : String)
    (s : ServerState) (data : RealtimeLocationData) (u1 u2 : String)
    (hreg : lookupA s.activeConnections sid = none) :
    handleEvent env sid (.locationUpdate data) s = ⟨s, [⟨sid, "error"⟩], []⟩
    ∧ handleEvent env sid (.startTracking u1) s = ⟨s, [⟨sid, "error"⟩], []⟩
    ∧ handleEvent env sid (.stopTracking u2) s = ⟨s, [⟨sid, "error"⟩], []⟩
    ∧ handleEvent env sid .emergencyRequest s = ⟨s, [⟨sid, "error"⟩], []⟩ := by
  refine ⟨?_, ?_, ?_, ?_⟩
  · simp only [handleEvent, onLocationUpdate, hreg]
  · simp only [handleEvent, onStartTracking, hreg]
  · simp only [handleEvent, onStopTracking, hreg]
  · simp only [handleEvent, onEmergencyRequest, hreg]

/-- C2 witness: the four rejections at a concrete unauthenticated socket. -/
theorem c2_witness :
    handleEvent envT "s0" (ClientEvent.locationUpdate goodData) (initState [])
        = ⟨initState [], [⟨"s0", "error"⟩], []⟩
    ∧ handleEvent envT "s0" (ClientEvent.startTracking "u1") (initState [])
        = ⟨initState [], [⟨"s0", "error"⟩], []⟩
    ∧ handleEvent envT "s0" (ClientEvent.stopTracking "u1") (initState [])
        = ⟨initState [], [⟨"s0", "error"⟩], []⟩
    ∧ handleEvent envT "s0" ClientEvent.emergencyRequest (initState [])
        = ⟨initState [], [⟨"s0", "error"⟩], []⟩ :=
  c2_unauthenticated_events_only_error envT "s0" (initState []) goodData
    "u1" "u1" rfl

/-- C3 counterexample: socket s1 authenticates as u1/org1 and then
re-authenticates as u1/org2; afterwards s1 sits in BOTH org1's and org2's
subscriber sets while its stored identity carries org2, so membership is not
exclusive and the org1 set's key differs from the identity's organization. -/
theorem c3_counterexample_reauth_in_two_org_sets :
    "s1" ∈ roomMembers stateReauth.organizationRooms "org1"
    ∧ "s1" ∈ roomMembers stateReauth.organizationRooms "org2"
    ∧ (lookupA stateReauth.activeConnections "s1").map SocketRoom.organizationId
        = some "org2" := by decide

/-- C3 (amended): in every trace in which no connection re-authenticates
into a different organization while registered, every connectionId belongs
to at most one organization's subscriber set, and membership implies the
set's key equals the organizationId of the connection's stored identity.
(The unguarded claim fails: a second authenticate with a different
organization leaves the old membership behind.) -/
theorem c3_membership_exclusive_without_org_switch (db0 : List TrackingDoc)
    (is : List Input) (h : noOrgSwitch (initState db0) is = true) :
    (∀ org org' sid,
        sid ∈ roomMembers (runSteps (initState db0) is).organizationRooms org →
        sid ∈ roomMembers (runSteps (initState db0) is).organizationRooms org' →
        org = org')
    ∧ (∀ org sid,
        sid ∈ roomMembers (runSteps (initState db0) is).organizationRooms org →
        ∃ rec, lookupA (runSteps (initState db0) is).activeConnections sid
            = some rec ∧ rec.organizationId = org) := by
  have hinit : RoomsRegistered (initState db0) := by
    intro org l sid hmem _
    exact absurd hmem (List.not_mem_nil _)
  have hrr := roomsRegistered_runSteps is (initState db0) hinit h
  have key : ∀ org sid,
      sid ∈ roomMembers (runSteps (initState db0) is).organizationRooms org →
      ∃ rec, lookupA (runSteps (initState db0) is).activeConnections sid
          = some rec ∧ rec.organizationId = org := by
    intro org sid hm
    unfold roomMembers at hm
    cases hx : lookupA (runSteps (initState db0) is).organizationRooms org with
    | none => rw [hx] at hm; simp at hm
    | some l =>
        rw [hx] at hm
        exact hrr org l sid (lookupA_some_mem hx) (by simpa using hm)
  refine ⟨?_, key⟩
  intro org org' sid h1 h2
  obtain ⟨r1, hl1, ho1⟩ := key org sid h1
  obtain ⟨r2, hl2, ho2⟩ := key org' sid h2
  rw [hl1] at hl2
  obtain rfl : r1 = r2 := by injection hl2
  rw [← ho1, ← ho2]

/-- C3 witness: on the two-socket trace without re-authentication the
exclusivity and key-match conclusions hold. -/
theorem c3_witness :
    noOrgSwitch (initState []) plainTrace = true
    ∧ ((∀ org org' sid,
          sid ∈ roomMembers (runSteps (initState []) plainTrace).organizationRooms org →
          sid ∈ roomMembers (runSteps (initState []) plainTrace).organizationRooms org' →
          org = org')
       ∧ (∀ org sid,
          sid ∈ roomMembers (runSteps (initState []) plainTrace).organizationRooms org →
          ∃ rec, lookupA (runSteps (initState []) plainTrace).activeConnections sid
              = some rec ∧ rec.organizationId = org)) :=
  ⟨by decide, c3_membership_exclusive_without_org_switch [] plainTrace (by decide)⟩

/-- C4 counterexample: after the double-authenticated socket s1 processes its
disconnect, the registry entry is gone but s1 is STILL a member of org1's
subscriber set, so disconnect cleanup is not complete for every set. -/
theorem c4_counterexample_stale_org_membership :
    lookupA stateReauthGone.activeConnections "s1" = none
    ∧ "s1" ∈ roomMembers stateReauthGone.organizationRooms "org1" := by decide

/-- C4 (amended): after a connection processes its disconnect, its registry
entry is absent, it is a member of no socket.io room (hence of no
delivery-watch/customer room), and it is not in the organization set keyed
by the identity it held at disconnect time; memberships in OTHER
organizations' sets left behind by earlier authenticates may survive. -/
theorem c4_disconnect_cleanup_current_org (env : Env) (sid : String)
    (s : ServerState) :
    lookupA (handleEvent env sid .disconnect s).state.activeConnections sid = none
    ∧ (∀ room members,
        (room, members) ∈ (handleEvent env sid .disconnect s).state.ioRooms →
        sid ∉ members)
    ∧ (∀ rec members, lookupA s.activeConnections sid = some rec →
        (rec.organizationId, members)
          ∈ (handleEvent env sid .disconnect s).state.organizationRooms →
        sid ∉ members) := by
  have hio : ∀ room members,
      (room, members) ∈ leaveAllRooms s.ioRooms sid → sid ∉ members := by
    intro room members hm hmem
    obtain ⟨l0, _, heq⟩ := mem_leaveAllRooms hm
    have heq' : members = removeFromSet l0 sid := heq
    rw [heq'] at hmem
    exact not_mem_removeFromSet l0 sid hmem
  cases hx : lookupA s.activeConnections sid with
  | none =>
      refine ⟨?_, ?_, ?_⟩
      · simp only [handleEvent, onDisconnect, hx]
      · intro room members hm
        simp only [handleEvent, onDisconnect, hx] at hm
        exact hio room members hm
      · intro rec members hrec
        exact Option.noConfusion hrec
  | some rec0 =>
      refine ⟨?_, ?_, ?_⟩
      · simp only [handleEvent, onDisconnect, hx]
        exact lookupA_eraseA_self _ _
      · intro room members hm
        simp only [handleEvent, onDisconnect, hx] at hm
        exact hio room members hm
      · intro rec members hrec hmem
        obtain rfl : rec0 = rec := by injection hrec
        simp only [handleEvent, onDisconnect, hx] at hmem
        cases ho : lookupA s.organizationRooms rec0.organizationId with
        | none =>
            simp only [ho] at hmem
            exact (lookupA_none_not_mem ho members hmem).elim
        | some l0 =>
            cases he : (removeFromSet l0 sid).isEmpty with
            | true =>
                simp only [ho, he, if_true] at hmem
                exact ((mem_eraseA hmem).2 rfl).elim
            | false =>
                simp only [ho, he, Bool.false_eq_true, if_false] at hmem
                obtain ⟨kv, hkvm, heq⟩ := mem_mapA hmem
                have hfst : rec0.organizationId = kv.1 := congrArg Prod.fst heq
                have hsnd : members = (if kv.1 == rec0.organizationId
                    then removeFromSet l0 sid else kv.2) := congrArg Prod.snd heq
                rw [if_pos (by simpa using hfst.symm)] at hsnd
                rw [hsnd]
                exact not_mem_removeFromSet l0 sid

/-- C5 counterexample: a VALID location_update whose store call fails emits
no broadcast at all — although org1's room has a member — and the failure IS
surfaced to the sender as an `error` event; the state is unchanged. This
refutes "the in-memory broadcasts still proceed and the failure is not
surfaced to the sender". -/
theorem c5_counterexample_failure_blocks_broadcast :
    validTrackingDoc (docOfData envF.now goodData) = true
    ∧ envF.dbOk = false
    ∧ roomMembers stateAuth1.ioRooms "org_org1" = ["s1"]
    ∧ c5Result.sent = [⟨"s1", "error"⟩]
    ∧ c5Result.state = stateAuth1 := by decide

/-- C5 (amended): the persistence call is awaited BEFORE any broadcast, so
when it fails the handler's catch emits only the `error` event to the
sender: no `location_updated` or `delivery_location_update` is emitted, and
the state (store, registry, rooms) is unchanged. -/
theorem c5_persistence_failure_suppresses_broadcast (env : Env) (sid : String)
    (data : RealtimeLocationData) (s : ServerState) (rec : SocketRoom)
    (hreg : lookupA s.activeConnections sid = some rec)
    (hdb : env.dbOk = false) :
    handleEvent env sid (.locationUpdate data) s
      = ⟨s, [⟨sid, "error"⟩], ["updateLocationInDatabase"]⟩ := by
  have hupd : updateLocationInDatabase env s.db data = .error () := by
    unfold updateLocationInDatabase
    simp [hdb]
  simp only [handleEvent, onLocationUpdate, hreg, hupd]

/-- C5 witness: the amended behaviour at the concrete failing store. -/
theorem c5_witness :
    handleEvent envF "s1" (ClientEvent.locationUpdate goodData) stateAuth1
      = ⟨stateAuth1, [⟨"s1", "error"⟩], ["updateLocationInDatabase"]⟩ :=
  c5_persistence_failure_suppresses_broadcast envF "s1" goodData stateAuth1
    ⟨"u1", "org1", "s1", false, 5⟩ (by decide) (by decide)

/-- C6 counterexample: a valid location_update does NOT leave isTracking
unchanged — s1's flag flips from false to true because the handler assigns
`connection.isTracking = data.isActive`. -/
theorem c6_counterexample_isTracking_overwritten :
    (lookupA stateAuth1.activeConnections "s1").map SocketRoom.isTracking
        = some false
    ∧ validTrackingDoc (docOfData envT.now goodData) = true
    ∧ (lookupA (handleEvent envT "s1" (ClientEvent.locationUpdate goodData)
          stateAuth1).state.activeConnections "s1").map SocketRoom.isTracking
        = some true := by decide

/-- C6 (amended): a successful location_update from an authenticated
connection rewrites the connection record with isTracking set to the
payload's isActive and lastUpdate set to the current tick (other record
fields unchanged), updates the store, emits the two room broadcasts, and
touches nothing else. -/
theorem c6_location_update_sets_isTracking_and_lastUpdate (env : Env)
    (sid : String) (data : RealtimeLocationData) (s : ServerState)
    (rec : SocketRoom) (db' : List TrackingDoc)
    (hreg : lookupA s.activeConnections sid = some rec)
    (hok : updateLocationInDatabase env s.db data = .ok db') :
    handleEvent env sid (.locationUpdate data) s
      = ⟨{ s with db := db',
                  activeConnections := setA s.activeConnections sid
                    { rec with isTracking := data.isActive,
                               lastUpdate := env.now } },
         emitRoom s.ioRooms ("org_" ++ rec.organizationId) "location_updated"
           ++ emitRoom s.ioRooms ("customer_" ++ data.userId)
                "delivery_location_update",
         ["updateLocationInDatabase"]⟩ := by
  simp only [handleEvent, onLocationUpdate, hreg, hok]

/-- C6 witness: the amended record mutation at a concrete update. -/
theorem c6_witness :
    handleEvent envT "s1" (ClientEvent.locationUpdate goodData) stateAuth1
      = ⟨{ stateAuth1 with db := [docOfData 5 goodData],
                           activeConnections := setA
                             stateAuth1.activeConnections "s1"
                             { userId := "u1", organizationId := "org1",
                               socketId := "s1", isTracking := true,
                               lastUpdate := 5 } },
         emitRoom stateAuth1.ioRooms ("org_" ++ "org1") "location_updated"
           ++ emitRoom stateAuth1.ioRooms ("customer_" ++ "u1")
                "delivery_location_update",
         ["updateLocationInDatabase"]⟩ :=
  c6_location_update_sets_isTracking_and_lastUpdate envT "s1" goodData
    stateAuth1 ⟨"u1", "org1", "s1", false, 5⟩ [docOfData 5 goodData]
    (by decide) rfl

/-- C7 counterexample: after s1 re-authenticates from org1 into org2, s1
belongs to org1's socket.io room; when s2 (org2) sends a valid
location_update, s1 — a connection belonging to a DIFFERENT organization's
room — still receives the `location_updated` broadcast. -/
theorem c7_counterexample_cross_room_receiver :
    "s1" ∈ roomMembers stateReauthPlus.ioRooms "org_org1"
    ∧ "org_org1" ≠ "org_org2"
    ∧ (lookupA stateReauthPlus.activeConnections "s2").map
        SocketRoom.organizationId = some "org2"
    ∧ (handleEvent envT "s2" (ClientEvent.locationUpdate goodData2)
        stateReauthPlus).sent.count ⟨"s1", "location_updated"⟩ = 1 := by decide

/-- C7 (amended): on a successful location_update by an authenticated
connection of organization O, every member of O's socket.io room at emission
time receives exactly one `location_updated` event, and every socket NOT in
that room receives none. (Sockets can sit in several organizations' rooms
after re-authentication, so "belongs to a different organization's room"
does not preclude receiving.) -/
theorem c7_location_updated_once_per_room_member (env : Env) (sid : String)
    (data : RealtimeLocationData) (s : ServerState) (rec : SocketRoom)
    (db' : List TrackingDoc)
    (hreg : lookupA s.activeConnections sid = some rec)
    (hok : updateLocationInDatabase env s.db data = .ok db')
    (hnodup : (roomMembers s.ioRooms ("org_" ++ rec.organizationId)).Nodup)
    (m : String) :
    (handleEvent env sid (.locationUpdate data) s).sent.count
        ⟨m, "location_updated"⟩
      = if m ∈ roomMembers s.ioRooms ("org_" ++ rec.organizationId)
        then 1 else 0 := by
  simp only [handleEvent, onLocationUpdate, hreg, hok]
  rw [List.count_append, count_emitRoom_self,
    count_emitRoom_ne _ _ _ _ _
      (by decide : "delivery_location_update" ≠ "location_updated"),
    Nat.add_zero]
  exact List.count_eq_of_nodup hnodup

/-- C7 witness: the per-member count at the concrete one-member room. -/
theorem c7_witness :
    (roomMembers stateAuth1.ioRooms ("org_" ++ "org1")).Nodup
    ∧ (handleEvent envT "s1" (ClientEvent.locationUpdate goodData)
          stateAuth1).sent.count ⟨"s1", "location_updated"⟩
        = if "s1" ∈ roomMembers stateAuth1.ioRooms ("org_" ++ "org1")
          then 1 else 0 :=
  ⟨by decide,
   c7_location_updated_once_per_room_member envT "s1" goodData stateAuth1
     ⟨"u1", "org1", "s1", false, 5⟩ [docOfData 5 goodData]
     (by decide) rfl (by decide) "s1"⟩

/-- C8: after any trace of events from a fresh service state, no
organization key of the subscriber-set map holds an empty set: sets are
created nonempty on first join (authenticate) and the disconnect handler
deletes an entry it empties. -/
theorem c8_no_empty_org_entries (db0 : List TrackingDoc) (is : List Input) :
    noEmptyOrg (runSteps (initState db0) is) = true :=
  noEmptyOrg_runSteps is (initState db0) rfl

/-- C9 counterexample: s1 authenticates at tick 5 (lastUpdate 5) and runs
start_tracking at tick 9: isTracking becomes true but lastUpdate stays 5 —
the claimed lastUpdate refresh does not happen. -/
theorem c9_counterexample_lastUpdate_not_refreshed :
    envT9.now = 9
    ∧ lookupA c9State.activeConnections "s1"
        = some ⟨"u1", "org1", "s1", true, 5⟩
    ∧ (5 : Nat) ≠ 9 := by decide

/-- C9 (amended): a successful start_tracking (resp. stop_tracking) from an
authenticated connection sets isTracking to true (resp. false) and leaves
lastUpdate — and every other record field — unchanged; lastUpdate is
refreshed only by location_update and authenticate. -/
theorem c9_markTracking_does_not_touch_lastUpdate (env : Env)
    (sid u : String) (s : ServerState) (rec : SocketRoom)
    (hreg : lookupA s.activeConnections sid = some rec) :
    (∀ db', startTrackingInDatabase env s.db u rec.organizationId = .ok db' →
        lookupA (handleEvent env sid (.startTracking u) s).state.activeConnections
            sid = some { rec with isTracking := true })
    ∧ (∀ db', stopTrackingInDatabase env s.db u = .ok db' →
        lookupA (handleEvent env sid (.stopTracking u) s).state.activeConnections
            sid = some { rec with isTracking := false }) := by
  constructor
  · intro db' hok
    simp only [handleEvent, onStartTracking, hreg, hok]
    exact lookupA_setA_self _ _ _
  · intro db' hok
    simp only [handleEvent, onStopTracking, hreg, hok]
    exact lookupA_setA_self _ _ _

/-- C9 witness: both tracking flags at the concrete connection, lastUpdate
still 5. -/
theorem c9_witness :
    lookupA (handleEvent envT9 "s1" (ClientEvent.startTracking "u1")
        stateAuth1).state.activeConnections "s1"
      = some ⟨"u1", "org1", "s1", true, 5⟩
    ∧ lookupA (handleEvent envT9 "s1" (ClientEvent.stopTracking "u1")
        stateAuth1).state.activeConnections "s1"
      = some ⟨"u1", "org1", "s1", false, 5⟩ :=
  have h := c9_markTracking_does_not_touch_lastUpdate envT9 "s1" "u1"
    stateAuth1 ⟨"u1", "org1", "s1", false, 5⟩ (by decide)
  ⟨h.1 [freshTrackingDoc 9 "u1" "org1"] rfl, h.2 [] rfl⟩

/-- C10: a disconnect of a socket that never successfully authenticated
(absent from the registry, member of no room) is a complete no-op at the
core's interface: no delivery, no persistence call, and the state —
registry, subscriber sets, socket.io rooms, store — is exactly unchanged. -/
theorem c10_unauthenticated_disconnect_noop (env : Env) (sid : String)
    (s : ServerState)
    (hreg : lookupA s.activeConnections sid = none)
    (hroom : ∀ room members, (room, members) ∈ s.ioRooms → sid ∉ members) :
    handleEvent env sid .disconnect s = ⟨s, [], []⟩ := by
  simp only [handleEvent, onDisconnect, hreg, leaveAllRooms_eq_self hroom]

/-- C10 witness: disconnecting an unknown socket from the fresh state. -/
theorem c10_witness :
    handleEvent envT "s0" ClientEvent.disconnect (initState [])
      = ⟨initState [], [], []⟩ :=
  c10_unauthenticated_disconnect_noop envT "s0" (initState []) rfl
    (fun _ _ hm => absurd hm (List.not_mem_nil _))

end GeoTrack
